import Mathlib

/-!
Verification of the pallet-pic-pro capture wizard and its local session store.

The definitions below are a shallow embedding of the TypeScript source:

* `Stage`, `AppState`, `handlePhotoTaken`, `handleBack`, `resetData`,
  `handleRestart` embed the wizard state machine of
  `src/components/PalletApp.tsx` and the session fields of
  `src/contexts/PalletContext.tsx` (`PalletProvider`, lines 64-69, 157-164).
* `addPhoto`, `saveSessionToLocalStorage`, `cleanupExpiredSessions`,
  `loadLocalSessions` embed the local session store of
  `src/contexts/PalletContext.tsx`.
* `handleContinueCount` embeds `handleContinue` of the pallet-count selector
  (`src/unnamed/part_003`), with `jsParseInt` modelling the base-10 behaviour
  of JavaScript `parseInt` (optional sign, longest leading digit run,
  trailing characters ignored; the legacy hex prefix is not modelled, which
  is irrelevant here because the input field only admits digit strings).
* `validateCustomerName`, `validatePoNumber`, `sanitizeInput` embed the
  validation of `src/components/CustomerInfoForm.tsx` and the security
  library appended to `src/contexts/PalletContext.tsx`; the external
  `DOMPurify.sanitize` collaborator is kept abstract as a parameter
  `purify : String → String`.

JavaScript numbers are modelled as `Int` (all values involved are integral),
JavaScript strings as `String`, and JavaScript truthiness of the loaded JSON
values as `truthy : JVal → Bool`.
-/

/-- Wizard stages, from `enum AppStage` in `PalletApp.tsx` (lines 13-19). -/
inductive Stage where
  | countSelection
  | customerInfo
  | photoCapture
  | gallery
  | history
deriving DecidableEq

/-- A captured photo, from `interface PalletPhoto` in `PalletContext.tsx`. -/
structure PalletPhoto where
  palletIndex : Int
  sideIndex : Int
  photoUri : String
deriving DecidableEq

/-- The wizard's mutable state: the `stage` of `PalletApp.tsx` together with
the session fields held by `PalletProvider` (`PalletContext.tsx` lines 64-69). -/
structure AppState where
  stage : Stage
  totalPallets : Int
  photos : List PalletPhoto
  customerName : String
  poNumber : String
  currentPallet : Int
  currentSide : Int
deriving DecidableEq

/-- The initial provider state: `useState(0)`, `useState([])`, `useState('')`,
`useState('')`, `useState(1)`, `useState(1)` in `PalletContext.tsx` lines 64-69,
with the app starting at `AppStage.COUNT_SELECTION` (`PalletApp.tsx` line 22). -/
def initState : AppState :=
  { stage := .countSelection
    totalPallets := 0
    photos := []
    customerName := ""
    poNumber := ""
    currentPallet := 1
    currentSide := 1 }

/-- `addPhoto` of `PalletContext.tsx` (lines 144-155): filter out any existing
photo with the same pallet and side, then append the new photo. -/
def addPhoto (photos : List PalletPhoto) (palletIndex sideIndex : Int)
    (photoUri : String) : List PalletPhoto :=
  (photos.filter fun photo =>
    !(photo.palletIndex == palletIndex && photo.sideIndex == sideIndex))
    ++ [{ palletIndex := palletIndex, sideIndex := sideIndex, photoUri := photoUri }]

/-- `handlePhotoTaken` of `PalletApp.tsx` (lines 42-61): record the photo, then
advance: next side if `currentSide < 4`, else next pallet (side reset to 1) if
`currentPallet < totalPallets`, else show the gallery. -/
def handlePhotoTaken (photoUri : String) (s : AppState) : AppState :=
  let withPhoto :=
    { s with photos := addPhoto s.photos s.currentPallet s.currentSide photoUri }
  if s.currentSide < 4 then
    { withPhoto with currentSide := s.currentSide + 1 }
  else if s.currentPallet < s.totalPallets then
    { withPhoto with currentPallet := s.currentPallet + 1, currentSide := 1 }
  else
    { withPhoto with stage := .gallery }

/-- `handleBack` of `PalletApp.tsx` (lines 63-83). -/
def handleBack (s : AppState) : AppState :=
  match s.stage with
  | .customerInfo => { s with stage := .countSelection }
  | .photoCapture =>
      if s.currentPallet = 1 ∧ s.currentSide = 1 then
        { s with stage := .customerInfo }
      else if s.currentSide = 1 then
        { s with currentPallet := s.currentPallet - 1, currentSide := 4 }
      else
        { s with currentSide := s.currentSide - 1 }
  | .history => { s with stage := .countSelection }
  | _ => s

/-- `resetData` of `PalletContext.tsx` (lines 157-164). -/
def resetData (s : AppState) : AppState :=
  { s with totalPallets := 0, photos := [], customerName := "", poNumber := ""
           currentPallet := 1, currentSide := 1 }

/-- `handleRestart` of `PalletApp.tsx` (lines 85-89): reset the session data
and return to the count-selection stage. -/
def handleRestart (s : AppState) : AppState :=
  { resetData s with stage := .countSelection }

/-- JavaScript whitespace as skipped by `parseInt` (common cases). -/
def jsSpace (c : Char) : Bool :=
  c == ' ' || c == '\t' || c == '\n' || c == '\r'

/-- Numeric value of a run of decimal digits. -/
def digitsToNat (ds : List Char) : Nat :=
  ds.foldl (fun a c => a * 10 + (c.toNat - 48)) 0

/-- Longest leading run of decimal digits, `none` when there is none (the
`NaN` outcome of `parseInt`). -/
def parseDigits (cs : List Char) : Option Int :=
  let ds := cs.takeWhile Char.isDigit
  if ds.isEmpty then none else some (digitsToNat ds)

/-- JavaScript `parseInt(s)` in base 10: skip leading whitespace, optional
sign, then the longest run of decimal digits; everything after it is ignored. -/
def jsParseInt (s : String) : Option Int :=
  match s.toList.dropWhile jsSpace with
  | '-' :: rest => (parseDigits rest).map (fun n => -n)
  | '+' :: rest => parseDigits rest
  | cs => parseDigits cs

/-- `handleContinue` of the pallet-count selector (`src/unnamed/part_003`
lines 28-47): empty or non-numeric input, a count `≤ 0`, or a count `> 50`
produce a validation error; otherwise the parsed count is accepted. -/
def handleContinueCount (count : String) : Except String Int :=
  if count = "" then .error "Please enter a valid number"
  else
    match jsParseInt count with
    | none => .error "Please enter a valid number"
    | some palletCount =>
        if palletCount ≤ 0 then
          .error "Number of pallets must be greater than zero"
        else if 50 < palletCount then
          .error "Maximum 50 pallets allowed per session"
        else
          .ok palletCount

/-- `sanitizeInput` of the security library: `DOMPurify.sanitize(input.trim())`,
with the external `DOMPurify.sanitize` abstracted as `purify`. -/
def sanitizeInput (purify : String → String) (input : String) : String :=
  purify input.trim

/-- Characters admitted by the customer-name regex `[a-zA-Z0-9\s\-_&.,]`. -/
def nameCharOk (c : Char) : Bool :=
  (97 ≤ c.toNat && c.toNat ≤ 122) || (65 ≤ c.toNat && c.toNat ≤ 90) ||
  (48 ≤ c.toNat && c.toNat ≤ 57) || jsSpace c ||
  c == '-' || c == '_' || c == '&' || c == '.' || c == ','

/-- Characters admitted by the PO-number regex `[a-zA-Z0-9\-_]`. -/
def poCharOk (c : Char) : Bool :=
  (97 ≤ c.toNat && c.toNat ≤ 122) || (65 ≤ c.toNat && c.toNat ≤ 90) ||
  (48 ≤ c.toNat && c.toNat ≤ 57) || c == '-' || c == '_'

/-- `validateCustomerName` of the security library: the sanitized name must be
non-empty, at most 100 characters, and match `^[a-zA-Z0-9\s\-_&.,]+$`. -/
def validateCustomerName (purify : String → String) (name : String) : Bool :=
  let sanitized := sanitizeInput purify name
  if sanitized = "" then false
  else if 100 < sanitized.length then false
  else sanitized.toList.all nameCharOk

/-- `validatePoNumber` of the security library: the sanitized PO number must be
non-empty, at most 50 characters, and match `^[a-zA-Z0-9\-_]+$`. -/
def validatePoNumber (purify : String → String) (po : String) : Bool :=
  let sanitized := sanitizeInput purify po
  if sanitized = "" then false
  else if 50 < sanitized.length then false
  else sanitized.toList.all poCharOk

/-- The UI events that drive the wizard. -/
inductive Event where
  | countContinue (input : String)
  | infoContinue (name po : String)
  | photoCaptured (uri : String)
  | back
  | restart
  | goHistory

/-- One step of the wizard machine: each event is applied exactly as the
corresponding handler is wired in the source (`PalletCountSelector`,
`CustomerInfoForm.handleContinue` + `renderStage`, `handlePhotoTaken`,
`handleBack`, `handleRestart`, `goToHistory`); an event whose stage guard does
not match leaves the state unchanged (the UI does not offer it). -/
def stepE (purify : String → String) (s : AppState) : Event → AppState
  | .countContinue input =>
      if s.stage = .countSelection then
        match handleContinueCount input with
        | .ok n => { s with totalPallets := n, stage := .customerInfo }
        | .error _ => s
      else s
  | .infoContinue name po =>
      if s.stage = .customerInfo then
        if validateCustomerName purify name && validatePoNumber purify po then
          { s with customerName := sanitizeInput purify name
                   poNumber := sanitizeInput purify po
                   stage := .photoCapture }
        else s
      else s
  | .photoCaptured uri =>
      if s.stage = .photoCapture then handlePhotoTaken uri s else s
  | .back => handleBack s
  | .restart => if s.stage = .gallery then handleRestart s else s
  | .goHistory => if s.stage = .countSelection then { s with stage := .history } else s

/-- States reachable from the initial provider state under the wizard events. -/
inductive Reachable (purify : String → String) : AppState → Prop
  | init : Reachable purify initState
  | step : ∀ s e, Reachable purify s → Reachable purify (stepE purify s e)

/-- A finalized session record, from `interface PalletSession` in
`PalletContext.tsx` (lines 11-18). -/
structure PalletSession where
  id : String
  customerName : String
  poNumber : String
  totalPallets : Int
  photos : List PalletPhoto
  timestamp : Int
deriving DecidableEq

/-- The local session store: the in-memory `localSessions` state together with
the value persisted under `localStorage['pallet_local_sessions']`. -/
structure LocalStore where
  sessions : List PalletSession
  persisted : List PalletSession
deriving DecidableEq

/-- `ONE_WEEK_MS` of `PalletContext.tsx` (line 61). -/
def oneWeekMs : Int := 7 * 24 * 60 * 60 * 1000

/-- `saveSessionToLocalStorage` of `PalletContext.tsx` (lines 167-191): reject
empty photos or empty customer name / PO number with no mutation; otherwise
prepend a new record to the in-memory list and attempt the durable write
(`writeFails` models `localStorage.setItem` throwing, which is caught and
surfaced as a `false` return while the in-memory list stays updated). -/
def saveSessionToLocalStorage (photos : List PalletPhoto)
    (customerName poNumber : String) (totalPallets : Int) (newId : String)
    (now : Int) (store : LocalStore) (writeFails : Bool) : Bool × LocalStore :=
  if photos.length = 0 ∨ customerName = "" ∨ poNumber = "" then
    (false, store)
  else
    let newSession : PalletSession :=
      { id := newId
        customerName := customerName
        poNumber := poNumber
        totalPallets := totalPallets
        photos := photos
        timestamp := now }
    let updatedSessions := newSession :: store.sessions
    if writeFails then
      (false, { sessions := updatedSessions, persisted := store.persisted })
    else
      (true, { sessions := updatedSessions, persisted := updatedSessions })

/-- `cleanupExpiredSessions` of `PalletContext.tsx` (lines 101-119): keep the
records with `now - timestamp < ONE_WEEK_MS`; if the filtered list's length
differs from the current one, install and persist it (the returned `Bool`
records whether this write happened). -/
def cleanupExpiredSessions (now : Int) (store : LocalStore) :
    LocalStore × Bool :=
  let filteredSessions :=
    store.sessions.filter fun session => decide (now - session.timestamp < oneWeekMs)
  if filteredSessions.length ≠ store.sessions.length then
    ({ sessions := filteredSessions, persisted := filteredSessions }, true)
  else
    (store, false)

/-- `deleteLocalSession` of `PalletContext.tsx` (lines 194-198). -/
def deleteLocalSession (sessionId : String) (store : LocalStore) : LocalStore :=
  let updatedSessions := store.sessions.filter fun session => session.id ≠ sessionId
  { sessions := updatedSessions, persisted := updatedSessions }

/-- A JavaScript value as seen by the load-time guard of `loadLocalSessions`:
only its truthiness, array-ness and number-ness are ever inspected. -/
inductive JVal where
  | undef
  | jnull
  | jbool (b : Bool)
  | jnum (n : Int)
  | jstr (s : String)
  | jarr (len : Nat)
  | jobj
deriving DecidableEq

/-- JavaScript truthiness of a `JVal` (`undefined`, `null`, `false`, `0` and
`''` are falsy; arrays and objects are always truthy). -/
def truthy : JVal → Bool
  | .undef => false
  | .jnull => false
  | .jbool b => b
  | .jnum n => n != 0
  | .jstr s => s != ""
  | .jarr _ => true
  | .jobj => true

/-- `Array.isArray` on a `JVal`. -/
def jvIsArray : JVal → Bool
  | .jarr _ => true
  | _ => false

/-- `typeof v === 'number'` on a `JVal`. -/
def jvIsNumber : JVal → Bool
  | .jnum _ => true
  | _ => false

/-- A record as parsed from the persisted JSON, before validation: each field
is an arbitrary JavaScript value (`undef` when the property is missing). -/
structure RawSession where
  id : JVal
  customerName : JVal
  poNumber : JVal
  totalPallets : JVal
  photos : JVal
  timestamp : JVal
deriving DecidableEq

/-- The guard predicate of `loadLocalSessions` (`PalletContext.tsx` lines
127-131): `session.id && session.customerName && session.poNumber &&
session.totalPallets && Array.isArray(session.photos) &&
typeof session.timestamp === 'number'`. -/
def validRecord (session : RawSession) : Bool :=
  truthy session.id && truthy session.customerName && truthy session.poNumber &&
  truthy session.totalPallets && jvIsArray session.photos &&
  jvIsNumber session.timestamp

/-- The content of `localStorage['pallet_local_sessions']` at load time:
absent, present but not valid JSON (`JSON.parse` throws), valid JSON that is
not an array, or an array of parsed records. -/
inductive StoredData where
  | absent
  | unparsable
  | notArray
  | records (rs : List RawSession)
deriving DecidableEq

/-- Result of the load: the in-memory `localSessions` list (initially `[]` and
only set when validation succeeds) and the storage content afterwards
(`.absent` after `localStorage.removeItem`). -/
structure LoadResult where
  sessions : List RawSession
  store : StoredData
deriving DecidableEq

/-- `loadLocalSessions` of `PalletContext.tsx` (lines 121-142): nothing stored
leaves everything untouched; a parse failure or a failed guard clears the
store and keeps the in-memory list empty; a fully valid array is installed. -/
def loadLocalSessions : StoredData → LoadResult
  | .absent => { sessions := [], store := .absent }
  | .unparsable => { sessions := [], store := .absent }
  | .notArray => { sessions := [], store := .absent }
  | .records rs =>
      if rs.all validRecord then { sessions := rs, store := .records rs }
      else { sessions := [], store := .absent }

/-- Number of occurrences of a pallet/side pair in a list of visited pairs. -/
def countPair (x : Int × Int) : List (Int × Int) → Nat
  | [] => 0
  | y :: ys => (if y = x then 1 else 0) + countPair x ys

/-- The four capture positions of one pallet, in side order. -/
def sideBlock (p : Int) : List (Int × Int) :=
  [(p, 1), (p, 2), (p, 3), (p, 4)]

/-- The side-major capture order for `n` pallets starting at pallet `p`:
`(p,1),(p,2),(p,3),(p,4),(p+1,1),…`. -/
def sideMajorFrom (p : Int) : Nat → List (Int × Int)
  | 0 => []
  | n + 1 => sideBlock p ++ sideMajorFrom (p + 1) n

/-- The state at the start of the capture phase for a session of
`totalPallets = T` pallets: Capture stage, position `(1,1)`. -/
def startCapture (T : Nat) : AppState :=
  { stage := .photoCapture
    totalPallets := (T : Int)
    photos := []
    customerName := ""
    poNumber := ""
    currentPallet := 1
    currentSide := 1 }

/-- Iterate the `photoCaptured` machine transition `n` times. -/
def capRun (s : AppState) : Nat → AppState
  | 0 => s
  | n + 1 => capRun (stepE (fun x => x) s (.photoCaptured "photo")) n

/-- The pallet/side pairs at which the first `n` iterated `photoCaptured`
transitions are applied. -/
def capTrace (s : AppState) : Nat → List (Int × Int)
  | 0 => []
  | n + 1 =>
      (s.currentPallet, s.currentSide)
        :: capTrace (stepE (fun x => x) s (.photoCaptured "photo")) n

/-- The reachable-state invariant of the wizard: the side index is always in
`[1,4]` and the pallet index is always at least 1; outside the capture phase
(CountSelection, CustomerInfo, History) the position sits at `(1,1)`; in
CustomerInfo the pallet count is already positive; and in the Capture and
Gallery stages the pallet index is bounded by the (positive) pallet count. -/
def InvAmended (s : AppState) : Prop :=
  1 ≤ s.currentSide ∧ s.currentSide ≤ 4 ∧ 1 ≤ s.currentPallet ∧
  ((s.stage = .countSelection ∨ s.stage = .customerInfo ∨ s.stage = .history) →
    s.currentPallet = 1 ∧ s.currentSide = 1) ∧
  (s.stage = .customerInfo → 1 ≤ s.totalPallets) ∧
  ((s.stage = .photoCapture ∨ s.stage = .gallery) →
    1 ≤ s.totalPallets ∧ s.currentPallet ≤ s.totalPallets)

/-- A concrete interior capture state: 2 pallets, position `(1,2)`. -/
def midCapState : AppState :=
  { stage := .photoCapture
    totalPallets := 2
    photos := []
    customerName := ""
    poNumber := ""
    currentPallet := 1
    currentSide := 2 }

/-- A persisted record that passes every clause of the load-time guard. -/
def goodRec : RawSession :=
  { id := .jstr "a1"
    customerName := .jstr "Acme"
    poNumber := .jstr "PO9"
    totalPallets := .jnum 2
    photos := .jarr 8
    timestamp := .jnum 1700000000000 }

/-- `goodRec` with the `poNumber` property missing. -/
def missingPoRec : RawSession := { goodRec with poNumber := .undef }

/-- `goodRec` with `customerName` present but equal to the empty string. -/
def emptyNameRec : RawSession := { goodRec with customerName := .jstr "" }

/-- `goodRec` with `poNumber` present but equal to the empty string. -/
def emptyPoRec : RawSession := { goodRec with poNumber := .jstr "" }

/-- `goodRec` with `totalPallets` equal to `0`. -/
def zeroTotalRec : RawSession := { goodRec with totalPallets := .jnum 0 }

/-- `goodRec` with `totalPallets` holding a truthy value of the wrong type
(a non-empty string). -/
def strTotalRec : RawSession := { goodRec with totalPallets := .jstr "12" }

/-- The record built by `saveSessionToLocalStorage` on a successful finalize. -/
def finalizedRecord (newId customerName poNumber : String) (totalPallets : Int)
    (photos : List PalletPhoto) (now : Int) : PalletSession :=
  { id := newId
    customerName := customerName
    poNumber := poNumber
    totalPallets := totalPallets
    photos := photos
    timestamp := now }

/-! ## Helper lemmas -/

theorem filter_not_filter {α : Type} (f : α → Bool) (l : List α) :
    (l.filter fun x => !(f x)).filter f = [] := by
  induction l with
  | nil => rfl
  | cons a t ih => by_cases h : f a <;> simp [List.filter_cons, h, ih]

theorem filter_of_filter_not {α : Type} (f g : α → Bool) (l : List α)
    (h : ∀ x, g x = true → f x = false) :
    (l.filter fun x => !(f x)).filter g = l.filter g := by
  induction l with
  | nil => rfl
  | cons a t ih =>
    by_cases hg : g a
    · have hf := h a hg
      simp [List.filter_cons, hf, hg, ih]
    · by_cases hf : f a <;>
        simp [List.filter_cons, hf, hg, ih]

/-- After `addPhoto`, the photos stored for the pair just written are exactly
the single new photo. -/
theorem addPhoto_self (photos : List PalletPhoto) (p s : Int) (uri : String) :
    ((addPhoto photos p s uri).filter fun ph =>
        ph.palletIndex == p && ph.sideIndex == s) =
      [{ palletIndex := p, sideIndex := s, photoUri := uri }] := by
  unfold addPhoto
  rw [List.filter_append, filter_not_filter]
  simp

/-- After `addPhoto`, the photos stored for every other pair are unchanged. -/
theorem addPhoto_other (photos : List PalletPhoto) (p s p' s' : Int)
    (uri : String) (h : ¬(p' = p ∧ s' = s)) :
    ((addPhoto photos p s uri).filter fun ph =>
        ph.palletIndex == p' && ph.sideIndex == s') =
      photos.filter fun ph => ph.palletIndex == p' && ph.sideIndex == s' := by
  unfold addPhoto
  rw [List.filter_append]
  have h2 : ∀ ph : PalletPhoto,
      (ph.palletIndex == p' && ph.sideIndex == s') = true →
      (ph.palletIndex == p && ph.sideIndex == s) = false := by
    intro ph hph
    simp only [Bool.and_eq_true, beq_iff_eq] at hph
    rcases hph with ⟨e1, e2⟩
    by_cases hp1 : ph.palletIndex = p
    · have hs' : s' ≠ s := fun hs => h ⟨by rw [← e1, hp1], hs⟩
      have hps : ph.sideIndex ≠ s := by rw [e2]; exact hs'
      simp [hps]
    · simp [hp1]
  rw [filter_of_filter_not _ _ _ h2]
  have hnew : ((p == p') && (s == s')) = false := by
    by_cases h1 : p = p'
    · by_cases h2s : s = s'
      · exact absurd ⟨h1.symm, h2s.symm⟩ h
      · have hss : (s == s') = false := by simp [h2s]
        simp [hss]
    · have hpp : (p == p') = false := by simp [h1]
      simp [hpp]
  simp [List.filter_cons, hnew]

/-- Any sequence of `addPhoto` calls starting from the empty photo list keeps
at most one photo per pallet/side pair. -/
theorem addPhoto_foldl_atMostOne (ops : List (Int × Int × String)) :
    ∀ acc : List PalletPhoto,
      (∀ p' s' : Int,
        ((acc.filter fun ph =>
            ph.palletIndex == p' && ph.sideIndex == s').length ≤ 1)) →
      ∀ p' s' : Int,
        (((ops.foldl (fun a op => addPhoto a op.1 op.2.1 op.2.2) acc).filter
            fun ph => ph.palletIndex == p' && ph.sideIndex == s').length ≤ 1) := by
  induction ops with
  | nil => intro acc hacc p' s'; exact hacc p' s'
  | cons op rest ih =>
    intro acc hacc p' s'
    refine ih (addPhoto acc op.1 op.2.1 op.2.2) ?_ p' s'
    intro q r
    by_cases hqr : q = op.1 ∧ r = op.2.1
    · rw [hqr.1, hqr.2, addPhoto_self]
      simp
    · rw [addPhoto_other _ _ _ _ _ _ hqr]
      exact hacc q r

/-! ## Claim theorems -/

/-- Claim C4: `addPhoto` leaves exactly one photo for the written
(palletIndex, sideIndex) pair — the newly supplied one (a prior photo for
that pair is replaced, not merged) — leaves the photos of every other pair
unchanged, and consequently any sequence of `addPhoto` calls starting from
the empty photo list keeps at most one photo per pair. -/
theorem spec_c4 (photos : List PalletPhoto) (p s : Int) (uri : String) :
    (((addPhoto photos p s uri).filter fun ph =>
        ph.palletIndex == p && ph.sideIndex == s) =
      [{ palletIndex := p, sideIndex := s, photoUri := uri }])
    ∧ (∀ p' s' : Int, ¬(p' = p ∧ s' = s) →
        ((addPhoto photos p s uri).filter fun ph =>
            ph.palletIndex == p' && ph.sideIndex == s') =
          photos.filter fun ph => ph.palletIndex == p' && ph.sideIndex == s')
    ∧ ∀ (ops : List (Int × Int × String)) (p' s' : Int),
        (((ops.foldl (fun a op => addPhoto a op.1 op.2.1 op.2.2) []).filter
            fun ph => ph.palletIndex == p' && ph.sideIndex == s').length ≤ 1) := by
  refine ⟨addPhoto_self photos p s uri, ?_, ?_⟩
  · intro p' s' h
    exact addPhoto_other photos p s p' s' uri h
  · intro ops p' s'
    exact addPhoto_foldl_atMostOne ops [] (by intro q r; simp) p' s'

/-- Witness for C4: retaking the photo at `(1,1)` leaves exactly one photo for
`(1,1)` — the second capture — and does not disturb the (empty) slot `(2,3)`. -/
theorem spec_c4_witness :
    (((addPhoto (addPhoto [] 1 1 "first") 1 1 "second").filter fun ph =>
        ph.palletIndex == 1 && ph.sideIndex == 1) =
      [{ palletIndex := 1, sideIndex := 1, photoUri := "second" }])
    ∧ ((addPhoto (addPhoto [] 1 1 "first") 1 1 "second").filter fun ph =>
        ph.palletIndex == 2 && ph.sideIndex == 3) =
      ((addPhoto [] 1 1 "first").filter fun ph =>
        ph.palletIndex == 2 && ph.sideIndex == 3) :=
  ⟨(spec_c4 (addPhoto [] 1 1 "first") 1 1 "second").1,
   (spec_c4 (addPhoto [] 1 1 "first") 1 1 "second").2.1 2 3 (by decide)⟩


/-- Claim C5: `saveSessionToLocalStorage` returns `false` with the store
completely untouched exactly when the photo list or the customer name or the
PO number is empty; otherwise it prepends the new record (most-recent-first)
to the in-memory list, and on a successful durable write also to the
persisted list returning `true`, while a failed durable write returns `false`
with the in-memory list still updated and the persisted list untouched. -/
theorem spec_c5 (photos : List PalletPhoto) (customerName poNumber : String)
    (totalPallets : Int) (newId : String) (now : Int) (store : LocalStore)
    (writeFails : Bool) :
    (((saveSessionToLocalStorage photos customerName poNumber totalPallets
          newId now store writeFails).1 = false ∧
        (saveSessionToLocalStorage photos customerName poNumber totalPallets
          newId now store writeFails).2 = store) ↔
      (photos = [] ∨ customerName = "" ∨ poNumber = ""))
    ∧ (photos ≠ [] → customerName ≠ "" → poNumber ≠ "" →
        (saveSessionToLocalStorage photos customerName poNumber totalPallets
            newId now store writeFails).2.sessions =
          finalizedRecord newId customerName poNumber totalPallets photos now
            :: store.sessions
        ∧ (writeFails = false →
            (saveSessionToLocalStorage photos customerName poNumber totalPallets
              newId now store writeFails).1 = true ∧
            (saveSessionToLocalStorage photos customerName poNumber totalPallets
              newId now store writeFails).2.persisted =
              finalizedRecord newId customerName poNumber totalPallets photos now
                :: store.sessions)
        ∧ (writeFails = true →
            (saveSessionToLocalStorage photos customerName poNumber totalPallets
              newId now store writeFails).1 = false ∧
            (saveSessionToLocalStorage photos customerName poNumber totalPallets
              newId now store writeFails).2.persisted = store.persisted)) := by
  by_cases hc : photos.length = 0 ∨ customerName = "" ∨ poNumber = ""
  · have hsave : saveSessionToLocalStorage photos customerName poNumber
        totalPallets newId now store writeFails = (false, store) := by
      unfold saveSessionToLocalStorage
      rw [if_pos hc]
    rw [hsave]
    constructor
    · refine ⟨fun _ => ?_, fun _ => ⟨rfl, rfl⟩⟩
      rcases hc with hc | hc
      · exact Or.inl (List.length_eq_zero.mp hc)
      · exact Or.inr hc
    · intro h1 h2 h3
      rcases hc with hc | hc | hc
      · exact absurd (List.length_eq_zero.mp hc) h1
      · exact absurd hc h2
      · exact absurd hc h3
  · have hne : photos ≠ [] := by
      intro he
      exact hc (Or.inl (by rw [he]; rfl))
    have hcn : customerName ≠ "" := fun he => hc (Or.inr (Or.inl he))
    have hpo : poNumber ≠ "" := fun he => hc (Or.inr (Or.inr he))
    cases writeFails with
    | false =>
        have hsave : saveSessionToLocalStorage photos customerName poNumber
            totalPallets newId now store false =
            (true, { sessions := finalizedRecord newId customerName poNumber
                        totalPallets photos now :: store.sessions
                     persisted := finalizedRecord newId customerName poNumber
                        totalPallets photos now :: store.sessions }) := by
          unfold saveSessionToLocalStorage
          rw [if_neg hc]
          rfl
        rw [hsave]
        constructor
        · constructor
          · intro hok
            exact Bool.noConfusion hok.1
          · intro hor
            rcases hor with hc' | hc' | hc'
            · exact absurd hc' hne
            · exact absurd hc' hcn
            · exact absurd hc' hpo
        · intro _ _ _
          refine ⟨rfl, ?_, ?_⟩
          · intro _
            exact ⟨rfl, rfl⟩
          · intro hwf
            exact Bool.noConfusion hwf
    | true =>
        have hsave : saveSessionToLocalStorage photos customerName poNumber
            totalPallets newId now store true =
            (false, { sessions := finalizedRecord newId customerName poNumber
                        totalPallets photos now :: store.sessions
                      persisted := store.persisted }) := by
          unfold saveSessionToLocalStorage
          rw [if_neg hc]
          rfl
        rw [hsave]
        constructor
        · constructor
          · intro hok
            have hl := congrArg List.length (congrArg LocalStore.sessions hok.2)
            simp at hl
          · intro hor
            rcases hor with hc' | hc' | hc'
            · exact absurd hc' hne
            · exact absurd hc' hcn
            · exact absurd hc' hpo
        · intro _ _ _
          refine ⟨rfl, ?_, ?_⟩
          · intro hwf
            exact Bool.noConfusion hwf
          · intro _
            exact ⟨rfl, rfl⟩

/-- Witness for C5: finalizing a one-photo session with non-empty metadata
into the empty store, with the durable write succeeding, prepends the record
to the in-memory list. -/
theorem spec_c5_witness :
    (saveSessionToLocalStorage [{ palletIndex := 1, sideIndex := 1, photoUri := "u" }]
        "Acme" "PO1" 1 "id0" 0 { sessions := [], persisted := [] } false).2.sessions =
      finalizedRecord "id0" "Acme" "PO1" 1
          [{ palletIndex := 1, sideIndex := 1, photoUri := "u" }] 0
        :: ({ sessions := [], persisted := [] } : LocalStore).sessions :=
  ((spec_c5 [{ palletIndex := 1, sideIndex := 1, photoUri := "u" }]
    "Acme" "PO1" 1 "id0" 0 { sessions := [], persisted := [] } false).2
    (by decide) (by decide) (by decide)).1

/-- Claim C6: if any parsed record fails the load-time shape validation (or
the overall structure is not an array, or the stored bytes do not parse),
then the load keeps the in-memory session list empty — no valid subset is
kept — and clears the underlying store. -/
theorem spec_c6 (rs : List RawSession) (h : ∃ r ∈ rs, validRecord r = false) :
    loadLocalSessions (.records rs) = { sessions := [], store := .absent }
    ∧ loadLocalSessions .notArray = { sessions := [], store := .absent }
    ∧ loadLocalSessions .unparsable = { sessions := [], store := .absent } := by
  refine ⟨?_, rfl, rfl⟩
  obtain ⟨r, hr, hv⟩ := h
  simp only [loadLocalSessions]
  rw [if_neg]
  intro hall
  have := List.all_eq_true.mp hall r hr
  rw [hv] at this
  exact Bool.noConfusion this

/-- Witness for C6: loading a persisted set where the second record is
missing `poNumber` yields an empty in-memory list and a cleared store. -/
theorem spec_c6_witness :
    loadLocalSessions (.records [goodRec, missingPoRec]) =
      { sessions := [], store := .absent } :=
  (spec_c6 [goodRec, missingPoRec]
    ⟨missingPoRec, by decide, by decide⟩).1

/-- Claim C7: the expiry sweep keeps exactly the records with
`now - createdAt < 7 days` (so it removes exactly those with
`now - createdAt ≥ 7 days`), preserves their original relative order, and
performs the durable write if and only if the resulting list's size differs
from the current one (in which case the persisted list becomes the filtered
list; otherwise it is untouched). -/
theorem spec_c7 (now : Int) (store : LocalStore) :
    (cleanupExpiredSessions now store).1.sessions =
      store.sessions.filter (fun session => decide (now - session.timestamp < oneWeekMs))
    ∧ (∀ session, session ∈ (cleanupExpiredSessions now store).1.sessions ↔
        (session ∈ store.sessions ∧ now - session.timestamp < oneWeekMs))
    ∧ (cleanupExpiredSessions now store).1.sessions.Sublist store.sessions
    ∧ ((cleanupExpiredSessions now store).2 = true ↔
        ((store.sessions.filter (fun session =>
          decide (now - session.timestamp < oneWeekMs))).length ≠
          store.sessions.length))
    ∧ ((cleanupExpiredSessions now store).2 = true →
        (cleanupExpiredSessions now store).1.persisted =
          (cleanupExpiredSessions now store).1.sessions)
    ∧ ((cleanupExpiredSessions now store).2 = false →
        (cleanupExpiredSessions now store).1.persisted = store.persisted) := by
  unfold cleanupExpiredSessions
  by_cases hlen :
      (store.sessions.filter (fun session =>
        decide (now - session.timestamp < oneWeekMs))).length ≠
        store.sessions.length
  · rw [if_pos hlen]
    refine ⟨rfl, ?_, List.filter_sublist _, ?_, fun _ => rfl, ?_⟩
    · intro session
      simp [List.mem_filter]
    · exact ⟨fun _ => hlen, fun _ => rfl⟩
    · intro hfalse
      exact Bool.noConfusion hfalse
  · rw [if_neg hlen]
    push_neg at hlen
    have heq : store.sessions.filter (fun session =>
        decide (now - session.timestamp < oneWeekMs)) = store.sessions :=
      (List.filter_sublist _).eq_of_length hlen
    refine ⟨heq.symm, ?_, List.Sublist.refl _, ?_, ?_, fun _ => rfl⟩
    · intro session
      constructor
      · intro hm
        have hm' : session ∈ store.sessions.filter (fun session =>
            decide (now - session.timestamp < oneWeekMs)) := by rw [heq]; exact hm
        have := List.mem_filter.mp hm'
        exact ⟨this.1, by simpa using this.2⟩
      · exact fun hm => hm.1
    · constructor
      · intro hfalse
        exact Bool.noConfusion hfalse
      · intro hne
        rw [hlen] at hne
        exact absurd rfl hne
    · intro htrue
      exact Bool.noConfusion htrue

/-- Witness for C7: with `now` exactly one week after a record's creation,
that record is swept (the boundary `now - createdAt = 7 days` counts as
expired) while a fresher record is retained, and the write happens. -/
theorem spec_c7_witness :
    (finalizedRecord "old" "A" "P" 1 [] 0 ∈
      (cleanupExpiredSessions oneWeekMs
        { sessions := [finalizedRecord "old" "A" "P" 1 [] 0,
                       finalizedRecord "new" "A" "P" 1 [] 1]
          persisted := [finalizedRecord "old" "A" "P" 1 [] 0,
                        finalizedRecord "new" "A" "P" 1 [] 1] }).1.sessions → False)
    ∧ finalizedRecord "new" "A" "P" 1 [] 1 ∈
      (cleanupExpiredSessions oneWeekMs
        { sessions := [finalizedRecord "old" "A" "P" 1 [] 0,
                       finalizedRecord "new" "A" "P" 1 [] 1]
          persisted := [finalizedRecord "old" "A" "P" 1 [] 0,
                        finalizedRecord "new" "A" "P" 1 [] 1] }).1.sessions := by
  constructor
  · intro hm
    have h := (spec_c7 oneWeekMs
      { sessions := [finalizedRecord "old" "A" "P" 1 [] 0,
                     finalizedRecord "new" "A" "P" 1 [] 1]
        persisted := [finalizedRecord "old" "A" "P" 1 [] 0,
                      finalizedRecord "new" "A" "P" 1 [] 1] }).2.1
      (finalizedRecord "old" "A" "P" 1 [] 0)
    have := (h.mp hm).2
    simp [finalizedRecord, oneWeekMs] at this
  · exact ((spec_c7 oneWeekMs
      { sessions := [finalizedRecord "old" "A" "P" 1 [] 0,
                     finalizedRecord "new" "A" "P" 1 [] 1]
        persisted := [finalizedRecord "old" "A" "P" 1 [] 0,
                      finalizedRecord "new" "A" "P" 1 [] 1] }).2.1
      (finalizedRecord "new" "A" "P" 1 [] 1)).mpr
      ⟨by decide, by decide⟩

/-- Claim C10: the load-time record guard tests only JavaScript truthiness of
`id`, `customerName`, `poNumber` and `totalPallets` (plus `Array.isArray` on
`photos` and `typeof 'number'` on `timestamp`): a record with all fields
present but an empty-string `customerName` or `poNumber`, or `totalPallets`
equal to 0, is classified as corrupt — discarding the whole archive and
clearing the store — while a truthy wrong-typed `totalPallets` (a non-empty
string) passes validation and is loaded. -/
theorem spec_c10 :
    (∀ session : RawSession, validRecord session =
      (truthy session.id && truthy session.customerName &&
       truthy session.poNumber && truthy session.totalPallets &&
       jvIsArray session.photos && jvIsNumber session.timestamp))
    ∧ validRecord emptyNameRec = false
    ∧ validRecord emptyPoRec = false
    ∧ validRecord zeroTotalRec = false
    ∧ loadLocalSessions (.records [emptyNameRec]) =
        { sessions := [], store := .absent }
    ∧ validRecord strTotalRec = true
    ∧ loadLocalSessions (.records [strTotalRec]) =
        { sessions := [strTotalRec], store := .records [strTotalRec] } :=
  ⟨fun _ => rfl, by decide, by decide, by decide, by decide, by decide, by decide⟩

/-- The count validation succeeds with value `n` exactly when the input
parses to `n` with `0 < n ≤ 50`. -/
theorem handleContinueCount_ok_iff (input : String) (n : Int) :
    handleContinueCount input = .ok n ↔
      jsParseInt input = some n ∧ 0 < n ∧ n ≤ 50 := by
  by_cases he : input = ""
  · have hval : handleContinueCount input = .error "Please enter a valid number" := by
      unfold handleContinueCount
      rw [if_pos he]
    rw [hval]
    constructor
    · intro h
      exact Except.noConfusion h
    · rintro ⟨hsome, -, -⟩
      rw [he] at hsome
      exact Option.noConfusion hsome
  · cases hp : jsParseInt input with
    | none =>
        have hval : handleContinueCount input = .error "Please enter a valid number" := by
          unfold handleContinueCount
          rw [if_neg he, hp]
        rw [hval]
        constructor
        · intro h
          exact Except.noConfusion h
        · rintro ⟨hsome, -, -⟩
          exact Option.noConfusion hsome
    | some m =>
        have hval : handleContinueCount input =
            (if m ≤ 0 then Except.error "Number of pallets must be greater than zero"
             else if 50 < m then Except.error "Maximum 50 pallets allowed per session"
             else Except.ok m) := by
          unfold handleContinueCount
          rw [if_neg he, hp]
        rw [hval]
        by_cases h1 : m ≤ 0
        · rw [if_pos h1]
          constructor
          · intro h
            exact Except.noConfusion h
          · rintro ⟨hsome, hpos, -⟩
            injection hsome with hmn
            omega
        · rw [if_neg h1]
          by_cases h2 : 50 < m
          · rw [if_pos h2]
            constructor
            · intro h
              exact Except.noConfusion h
            · rintro ⟨hsome, -, hle⟩
              injection hsome with hmn
              omega
          · rw [if_neg h2]
            constructor
            · intro h
              injection h with hmn
              subst hmn
              exact ⟨rfl, by omega, by omega⟩
            · rintro ⟨hsome, -, -⟩
              injection hsome with hmn
              rw [hmn]

/-- In the count-selection stage, the `countContinue` event is decided by
`handleContinueCount`. -/
theorem stepE_countContinue (purify : String → String) (s : AppState)
    (input : String) (hstage : s.stage = .countSelection) :
    stepE purify s (.countContinue input) =
      (match handleContinueCount input with
       | .ok n => { s with totalPallets := n, stage := .customerInfo }
       | .error _ => s) := by
  simp only [stepE]
  rw [if_pos hstage]

/-- Claim C8: in the CountSelection stage, `continue(totalPallets)` succeeds
(moving to CustomerInfo with the count recorded) exactly when the input
parses as a positive integer at most 50; any other input (empty,
non-numeric, zero, negative, or above 50) yields a validation error and
leaves the whole state — stage and all session fields — unchanged. -/
theorem spec_c8 (purify : String → String) (input : String) (s : AppState)
    (hstage : s.stage = .countSelection) :
    (∀ n : Int, handleContinueCount input = .ok n ↔
       (jsParseInt input = some n ∧ 0 < n ∧ n ≤ 50))
    ∧ ((∀ n : Int, ¬(jsParseInt input = some n ∧ 0 < n ∧ n ≤ 50)) →
        (∃ e, handleContinueCount input = .error e) ∧
        stepE purify s (.countContinue input) = s)
    ∧ (∀ n : Int, jsParseInt input = some n → 0 < n → n ≤ 50 →
        handleContinueCount input = .ok n ∧
        stepE purify s (.countContinue input) =
          { s with totalPallets := n, stage := .customerInfo }) := by
  refine ⟨fun n => handleContinueCount_ok_iff input n, ?_, ?_⟩
  · intro hbad
    have herr : ∃ e, handleContinueCount input = .error e := by
      cases hc : handleContinueCount input with
      | error e => exact ⟨e, rfl⟩
      | ok n =>
          exact absurd ((handleContinueCount_ok_iff input n).mp hc) (hbad n)
    refine ⟨herr, ?_⟩
    obtain ⟨e, he⟩ := herr
    rw [stepE_countContinue purify s input hstage, he]
  · intro n hsome hpos hle
    have hok : handleContinueCount input = .ok n :=
      (handleContinueCount_ok_iff input n).mpr ⟨hsome, hpos, hle⟩
    refine ⟨hok, ?_⟩
    rw [stepE_countContinue purify s input hstage, hok]

/-- Witness for C8: the input `"0"` is rejected with the state unchanged, and
the input `"7"` is accepted, recording 7 pallets and moving to CustomerInfo. -/
theorem spec_c8_witness :
    stepE (fun x => x) initState (.countContinue "0") = initState
    ∧ stepE (fun x => x) initState (.countContinue "7") =
        { initState with totalPallets := 7, stage := .customerInfo } :=
  ⟨((spec_c8 (fun x => x) "0" initState rfl).2.1 (by
      intro n hn
      obtain ⟨hsome, hpos, -⟩ := hn
      have h0 : jsParseInt "0" = some 0 := by decide
      rw [h0] at hsome
      injection hsome with hmn
      omega)).2,
   ((spec_c8 (fun x => x) "7" initState rfl).2.2 7 (by decide) (by decide)
     (by decide)).2⟩

/-- A name that passes `validateCustomerName` is non-empty after
trimming/sanitization. -/
theorem validateCustomerName_ne_empty (purify : String → String) (name : String)
    (h : validateCustomerName purify name = true) :
    sanitizeInput purify name ≠ "" := by
  intro he
  unfold validateCustomerName at h
  simp only [he] at h
  exact Bool.noConfusion h

/-- A PO number that passes `validatePoNumber` is non-empty after
trimming/sanitization. -/
theorem validatePoNumber_ne_empty (purify : String → String) (po : String)
    (h : validatePoNumber purify po = true) :
    sanitizeInput purify po ≠ "" := by
  intro he
  unfold validatePoNumber at h
  simp only [he] at h
  exact Bool.noConfusion h

/-- `InvAmended` on an explicit state tuple, with the projections reduced. -/
theorem invAmended_mk (st : Stage) (tp : Int) (ph : List PalletPhoto)
    (cn po : String) (cp cs : Int) :
    InvAmended ⟨st, tp, ph, cn, po, cp, cs⟩ ↔
      (1 ≤ cs ∧ cs ≤ 4 ∧ 1 ≤ cp ∧
        ((st = .countSelection ∨ st = .customerInfo ∨ st = .history) →
          cp = 1 ∧ cs = 1) ∧
        (st = .customerInfo → 1 ≤ tp) ∧
        ((st = .photoCapture ∨ st = .gallery) → 1 ≤ tp ∧ cp ≤ tp)) :=
  Iff.rfl

/-- `handlePhotoTaken` on an explicit state tuple, reduced. -/
theorem handlePhotoTaken_mk (uri : String) (st : Stage) (tp : Int)
    (ph : List PalletPhoto) (cn po : String) (cp cs : Int) :
    handlePhotoTaken uri ⟨st, tp, ph, cn, po, cp, cs⟩ =
      (if cs < 4 then ⟨st, tp, addPhoto ph cp cs uri, cn, po, cp, cs + 1⟩
       else if cp < tp then ⟨st, tp, addPhoto ph cp cs uri, cn, po, cp + 1, 1⟩
       else ⟨.gallery, tp, addPhoto ph cp cs uri, cn, po, cp, cs⟩) := rfl

/-- `handleBack` on an explicit capture-stage tuple, reduced. -/
theorem handleBack_capture_mk (tp : Int) (ph : List PalletPhoto)
    (cn po : String) (cp cs : Int) :
    handleBack ⟨.photoCapture, tp, ph, cn, po, cp, cs⟩ =
      (if cp = 1 ∧ cs = 1 then ⟨.customerInfo, tp, ph, cn, po, cp, cs⟩
       else if cs = 1 then ⟨.photoCapture, tp, ph, cn, po, cp - 1, 4⟩
       else ⟨.photoCapture, tp, ph, cn, po, cp, cs - 1⟩) := rfl

/-- Every state reachable under the wizard events satisfies `InvAmended`. -/
theorem reachable_inv (purify : String → String) (s : AppState)
    (h : Reachable purify s) : InvAmended s := by
  induction h with
  | init =>
      exact ⟨by decide, by decide, by decide, fun _ => ⟨rfl, rfl⟩,
        fun hst => Stage.noConfusion hst,
        fun hst => by rcases hst with h | h <;> exact Stage.noConfusion h⟩
  | step s e hs ih =>
      obtain ⟨st, tp, ph, cn, po, cp, cs⟩ := s
      cases e with
      | countContinue input =>
          cases st <;> try exact ih
          rw [stepE_countContinue _ _ _ rfl]
          cases hcc : handleContinueCount input with
          | error e0 => exact ih
          | ok n =>
              obtain ⟨-, hn1, hn2⟩ := (handleContinueCount_ok_iff input n).mp hcc
              show InvAmended ⟨.customerInfo, n, ph, cn, po, cp, cs⟩
              rw [invAmended_mk] at ih ⊢
              obtain ⟨i1, i2, i3, i4, i5, i6⟩ := ih
              obtain ⟨e1, e2⟩ := i4 (Or.inl rfl)
              refine ⟨i1, i2, i3, fun _ => ⟨e1, e2⟩, fun _ => by omega, ?_⟩
              intro hst
              rcases hst with h | h <;> exact Stage.noConfusion h
      | infoContinue nm po2 =>
          cases st <;> try exact ih
          by_cases hv :
              (validateCustomerName purify nm && validatePoNumber purify po2) = true
          · have hstep : stepE purify
                ⟨.customerInfo, tp, ph, cn, po, cp, cs⟩ (.infoContinue nm po2) =
                ⟨.photoCapture, tp, ph, sanitizeInput purify nm,
                  sanitizeInput purify po2, cp, cs⟩ := by
              simp only [stepE]
              rw [if_pos trivial, if_pos hv]
            rw [hstep]
            rw [invAmended_mk] at ih ⊢
            obtain ⟨i1, i2, i3, i4, i5, i6⟩ := ih
            obtain ⟨e1, e2⟩ := i4 (Or.inr (Or.inl rfl))
            have htp := i5 rfl
            refine ⟨i1, i2, i3, ?_, ?_, fun _ => ⟨htp, by omega⟩⟩
            · intro hst
              rcases hst with h | h | h <;> exact Stage.noConfusion h
            · intro hst
              exact Stage.noConfusion hst
          · have hstep : stepE purify
                ⟨.customerInfo, tp, ph, cn, po, cp, cs⟩ (.infoContinue nm po2) =
                ⟨.customerInfo, tp, ph, cn, po, cp, cs⟩ := by
              simp only [stepE]
              rw [if_pos trivial, if_neg hv]
            rw [hstep]
            exact ih
      | photoCaptured uri =>
          cases st <;> try exact ih
          rw [invAmended_mk] at ih
          obtain ⟨i1, i2, i3, i4, i5, i6⟩ := ih
          obtain ⟨htp, hcp⟩ := i6 (Or.inl rfl)
          have hstep : stepE purify
              ⟨.photoCapture, tp, ph, cn, po, cp, cs⟩ (.photoCaptured uri) =
              handlePhotoTaken uri ⟨.photoCapture, tp, ph, cn, po, cp, cs⟩ := by
            simp only [stepE]
            rw [if_pos trivial]
          rw [hstep, handlePhotoTaken_mk]
          split_ifs with hs4 hlt
          · show InvAmended ⟨.photoCapture, tp, addPhoto ph cp cs uri, cn, po, cp, cs + 1⟩
            rw [invAmended_mk]
            refine ⟨by omega, by omega, by omega, ?_, ?_, fun _ => ⟨htp, hcp⟩⟩
            · intro hst
              rcases hst with h | h | h <;> exact Stage.noConfusion h
            · intro hst
              exact Stage.noConfusion hst
          · show InvAmended ⟨.photoCapture, tp, addPhoto ph cp cs uri, cn, po, cp + 1, 1⟩
            rw [invAmended_mk]
            refine ⟨by omega, by omega, by omega, ?_, ?_, fun _ => ⟨htp, by omega⟩⟩
            · intro hst
              rcases hst with h | h | h <;> exact Stage.noConfusion h
            · intro hst
              exact Stage.noConfusion hst
          · show InvAmended ⟨.gallery, tp, addPhoto ph cp cs uri, cn, po, cp, cs⟩
            rw [invAmended_mk]
            refine ⟨i1, i2, i3, ?_, ?_, fun _ => ⟨htp, hcp⟩⟩
            · intro hst
              rcases hst with h | h | h <;> exact Stage.noConfusion h
            · intro hst
              exact Stage.noConfusion hst
      | back =>
          cases st with
          | countSelection => exact ih
          | gallery => exact ih
          | customerInfo =>
              show InvAmended ⟨.countSelection, tp, ph, cn, po, cp, cs⟩
              rw [invAmended_mk] at ih ⊢
              obtain ⟨i1, i2, i3, i4, i5, i6⟩ := ih
              obtain ⟨e1, e2⟩ := i4 (Or.inr (Or.inl rfl))
              refine ⟨i1, i2, i3, fun _ => ⟨e1, e2⟩, ?_, ?_⟩
              · intro hst
                exact Stage.noConfusion hst
              · intro hst
                rcases hst with h | h <;> exact Stage.noConfusion h
          | history =>
              show InvAmended ⟨.countSelection, tp, ph, cn, po, cp, cs⟩
              rw [invAmended_mk] at ih ⊢
              obtain ⟨i1, i2, i3, i4, i5, i6⟩ := ih
              obtain ⟨e1, e2⟩ := i4 (Or.inr (Or.inr rfl))
              refine ⟨i1, i2, i3, fun _ => ⟨e1, e2⟩, ?_, ?_⟩
              · intro hst
                exact Stage.noConfusion hst
              · intro hst
                rcases hst with h | h <;> exact Stage.noConfusion h
          | photoCapture =>
              rw [invAmended_mk] at ih
              obtain ⟨i1, i2, i3, i4, i5, i6⟩ := ih
              obtain ⟨htp, hcp⟩ := i6 (Or.inl rfl)
              show InvAmended (handleBack ⟨.photoCapture, tp, ph, cn, po, cp, cs⟩)
              rw [handleBack_capture_mk]
              split_ifs with h11 hs1
              · show InvAmended ⟨.customerInfo, tp, ph, cn, po, cp, cs⟩
                rw [invAmended_mk]
                refine ⟨i1, i2, i3, fun _ => ⟨h11.1, h11.2⟩, fun _ => htp, ?_⟩
                intro hst
                rcases hst with h | h <;> exact Stage.noConfusion h
              · show InvAmended ⟨.photoCapture, tp, ph, cn, po, cp - 1, 4⟩
                rw [invAmended_mk]
                have hcp1 : cp ≠ 1 := fun hc => h11 ⟨hc, hs1⟩
                refine ⟨by omega, by omega, by omega, ?_, ?_,
                  fun _ => ⟨htp, by omega⟩⟩
                · intro hst
                  rcases hst with h | h | h <;> exact Stage.noConfusion h
                · intro hst
                  exact Stage.noConfusion hst
              · show InvAmended ⟨.photoCapture, tp, ph, cn, po, cp, cs - 1⟩
                rw [invAmended_mk]
                refine ⟨by omega, by omega, by omega, ?_, ?_,
                  fun _ => ⟨htp, hcp⟩⟩
                · intro hst
                  rcases hst with h | h | h <;> exact Stage.noConfusion h
                · intro hst
                  exact Stage.noConfusion hst
      | restart =>
          cases st <;> try exact ih
          show InvAmended ⟨.countSelection, 0, [], "", "", 1, 1⟩
          rw [invAmended_mk]
          refine ⟨by omega, by omega, by omega, fun _ => ⟨rfl, rfl⟩, ?_, ?_⟩
          · intro hst
            exact Stage.noConfusion hst
          · intro hst
            rcases hst with h | h <;> exact Stage.noConfusion h
      | goHistory =>
          cases st <;> try exact ih
          show InvAmended ⟨.history, tp, ph, cn, po, cp, cs⟩
          rw [invAmended_mk] at ih ⊢
          obtain ⟨i1, i2, i3, i4, i5, i6⟩ := ih
          obtain ⟨e1, e2⟩ := i4 (Or.inl rfl)
          refine ⟨i1, i2, i3, fun _ => ⟨e1, e2⟩, ?_, ?_⟩
          · intro hst
            exact Stage.noConfusion hst
          · intro hst
            rcases hst with h | h <;> exact Stage.noConfusion h

/-- Counterexample to C3 as stated: the initial state is reachable (by the
empty event sequence) but violates `1 ≤ currentPallet ≤ totalPallets`, since
`totalPallets` starts at 0 while `currentPallet` starts at 1 (and the state
after a Gallery restart violates it in the same way). -/
theorem spec_c3_cex :
    Reachable (fun x => x) initState ∧
      ¬(1 ≤ initState.currentPallet ∧
        initState.currentPallet ≤ initState.totalPallets) :=
  ⟨Reachable.init, by decide⟩

/-- Claim C3 (amended): every reachable state satisfies `1 ≤ currentSide ≤ 4`
and `1 ≤ currentPallet`, and whenever the stage is Capture or Gallery it also
satisfies `currentPallet ≤ totalPallets`; outside those stages
`totalPallets` may still be 0 (it is 0 initially and after restart), so the
upper bound on `currentPallet` holds only in the capture phase. -/
theorem spec_c3_amended (purify : String → String) (s : AppState)
    (h : Reachable purify s) :
    (1 ≤ s.currentSide ∧ s.currentSide ≤ 4) ∧ 1 ≤ s.currentPallet ∧
      ((s.stage = .photoCapture ∨ s.stage = .gallery) →
        (1 ≤ s.currentPallet ∧ s.currentPallet ≤ s.totalPallets)) := by
  obtain ⟨i1, i2, i3, -, -, i6⟩ := reachable_inv purify s h
  exact ⟨⟨i1, i2⟩, i3, fun hst => ⟨i3, (i6 hst).2⟩⟩

/-- Witness for the amended C3 at the (reachable) initial state. -/
theorem spec_c3_amended_witness :
    (1 ≤ initState.currentSide ∧ initState.currentSide ≤ 4) ∧
      1 ≤ initState.currentPallet ∧
      ((initState.stage = .photoCapture ∨ initState.stage = .gallery) →
        (1 ≤ initState.currentPallet ∧
          initState.currentPallet ≤ initState.totalPallets)) :=
  spec_c3_amended (fun x => x) initState Reachable.init

/-- Claim C9: from any reachable CustomerInfo state, the
`continue(customerName, poNumber)` event succeeds — entering Capture — when
the validation passes, and on every successful application the machine is in
Capture with `currentPallet = 1` and `currentSide = 1`; moreover success
requires both fields to be non-empty after trimming/sanitization. -/
theorem spec_c9 (purify : String → String) (s : AppState) (nm po : String)
    (hreach : Reachable purify s) (hstage : s.stage = .customerInfo) :
    ((validateCustomerName purify nm && validatePoNumber purify po) = true →
      (stepE purify s (.infoContinue nm po)).stage = .photoCapture ∧
      (stepE purify s (.infoContinue nm po)).currentPallet = 1 ∧
      (stepE purify s (.infoContinue nm po)).currentSide = 1)
    ∧ ((stepE purify s (.infoContinue nm po)).stage = .photoCapture →
      sanitizeInput purify nm ≠ "" ∧ sanitizeInput purify po ≠ "") := by
  obtain ⟨-, -, -, i4, -, -⟩ := reachable_inv purify s hreach
  obtain ⟨e1, e2⟩ := i4 (Or.inr (Or.inl hstage))
  constructor
  · intro hv
    have hstep : stepE purify s (.infoContinue nm po) =
        { s with customerName := sanitizeInput purify nm
                 poNumber := sanitizeInput purify po
                 stage := .photoCapture } := by
      simp only [stepE]
      rw [if_pos hstage, if_pos hv]
    rw [hstep]
    exact ⟨rfl, e1, e2⟩
  · intro hcap
    by_cases hv : (validateCustomerName purify nm && validatePoNumber purify po) = true
    · obtain ⟨hvn, hvp⟩ := Bool.and_eq_true_iff.mp hv
      exact ⟨validateCustomerName_ne_empty purify nm hvn,
        validatePoNumber_ne_empty purify po hvp⟩
    · have hstep : stepE purify s (.infoContinue nm po) = s := by
        simp only [stepE]
        rw [if_pos hstage, if_neg hv]
      rw [hstep, hstage] at hcap
      exact Stage.noConfusion hcap

/-- Witness for C9: after entering 3 pallets, continuing with a valid
customer name and PO number (with a sanitizer that returns a fixed non-empty
string) lands in Capture at position `(1,1)`. -/
theorem spec_c9_witness :
    (stepE (fun _ => "X") (stepE (fun _ => "X") initState (.countContinue "3"))
        (.infoContinue "Acme" "PO1")).stage = .photoCapture
    ∧ (stepE (fun _ => "X") (stepE (fun _ => "X") initState (.countContinue "3"))
        (.infoContinue "Acme" "PO1")).currentPallet = 1
    ∧ (stepE (fun _ => "X") (stepE (fun _ => "X") initState (.countContinue "3"))
        (.infoContinue "Acme" "PO1")).currentSide = 1 :=
  (spec_c9 (fun _ => "X") (stepE (fun _ => "X") initState (.countContinue "3"))
    "Acme" "PO1" (Reachable.step _ _ Reachable.init) rfl).1 (by decide)

/-- The `back` event is `handleBack`, in every stage. -/
theorem stepE_back (purify : String → String) (s : AppState) :
    stepE purify s .back = handleBack s := rfl

/-- Claim C2: at every non-boundary capture position — neither `(1,1)` nor
`(totalPallets,4)` — back followed by advance, and advance followed by back,
return the machine to the same stage and the same
`(currentPallet, currentSide)`. -/
theorem spec_c2 (purify : String → String) (uri : String) (s : AppState)
    (hstage : s.stage = .photoCapture)
    (hp1 : 1 ≤ s.currentPallet) (hp2 : s.currentPallet ≤ s.totalPallets)
    (hs1 : 1 ≤ s.currentSide) (hs2 : s.currentSide ≤ 4)
    (hfirst : ¬(s.currentPallet = 1 ∧ s.currentSide = 1))
    (hlast : ¬(s.currentPallet = s.totalPallets ∧ s.currentSide = 4)) :
    ((stepE purify (stepE purify s .back) (.photoCaptured uri)).stage = s.stage ∧
      (stepE purify (stepE purify s .back) (.photoCaptured uri)).currentPallet =
        s.currentPallet ∧
      (stepE purify (stepE purify s .back) (.photoCaptured uri)).currentSide =
        s.currentSide)
    ∧ ((stepE purify (stepE purify s (.photoCaptured uri)) .back).stage = s.stage ∧
      (stepE purify (stepE purify s (.photoCaptured uri)) .back).currentPallet =
        s.currentPallet ∧
      (stepE purify (stepE purify s (.photoCaptured uri)) .back).currentSide =
        s.currentSide) := by
  obtain ⟨st, tp, ph, cn, po, cp, cs⟩ := s
  have hst : st = .photoCapture := hstage
  subst hst
  have hp1' : 1 ≤ cp := hp1
  have hp2' : cp ≤ tp := hp2
  have hs1' : 1 ≤ cs := hs1
  have hs2' : cs ≤ 4 := hs2
  have hfirst' : ¬(cp = 1 ∧ cs = 1) := hfirst
  have hlast' : ¬(cp = tp ∧ cs = 4) := hlast
  constructor
  · by_cases hcs1 : cs = 1
    · have hcp1 : cp ≠ 1 := fun hc => hfirst' ⟨hc, hcs1⟩
      subst hcs1
      have h1 : stepE purify ⟨.photoCapture, tp, ph, cn, po, cp, 1⟩ .back =
          ⟨.photoCapture, tp, ph, cn, po, cp - 1, 4⟩ := by
        rw [stepE_back, handleBack_capture_mk, if_neg (fun hc => hcp1 hc.1), if_pos rfl]
      have h2 : stepE purify ⟨.photoCapture, tp, ph, cn, po, cp - 1, 4⟩
          (.photoCaptured uri) =
          ⟨.photoCapture, tp, addPhoto ph (cp - 1) 4 uri, cn, po, cp - 1 + 1, 1⟩ := by
        have he : stepE purify ⟨.photoCapture, tp, ph, cn, po, cp - 1, 4⟩
            (.photoCaptured uri) =
            handlePhotoTaken uri ⟨.photoCapture, tp, ph, cn, po, cp - 1, 4⟩ := rfl
        rw [he, handlePhotoTaken_mk, if_neg (by omega), if_pos (by omega)]
      rw [h1, h2]
      refine ⟨rfl, ?_, rfl⟩
      show cp - 1 + 1 = cp
      omega
    · have h1 : stepE purify ⟨.photoCapture, tp, ph, cn, po, cp, cs⟩ .back =
          ⟨.photoCapture, tp, ph, cn, po, cp, cs - 1⟩ := by
        rw [stepE_back, handleBack_capture_mk, if_neg (fun hc => hcs1 hc.2), if_neg hcs1]
      have h2 : stepE purify ⟨.photoCapture, tp, ph, cn, po, cp, cs - 1⟩
          (.photoCaptured uri) =
          ⟨.photoCapture, tp, addPhoto ph cp (cs - 1) uri, cn, po, cp, cs - 1 + 1⟩ := by
        have he : stepE purify ⟨.photoCapture, tp, ph, cn, po, cp, cs - 1⟩
            (.photoCaptured uri) =
            handlePhotoTaken uri ⟨.photoCapture, tp, ph, cn, po, cp, cs - 1⟩ := rfl
        rw [he, handlePhotoTaken_mk, if_pos (by omega)]
      rw [h1, h2]
      refine ⟨rfl, rfl, ?_⟩
      show cs - 1 + 1 = cs
      omega
  · by_cases hcs4 : cs < 4
    · have h1 : stepE purify ⟨.photoCapture, tp, ph, cn, po, cp, cs⟩
          (.photoCaptured uri) =
          ⟨.photoCapture, tp, addPhoto ph cp cs uri, cn, po, cp, cs + 1⟩ := by
        have he : stepE purify ⟨.photoCapture, tp, ph, cn, po, cp, cs⟩
            (.photoCaptured uri) =
            handlePhotoTaken uri ⟨.photoCapture, tp, ph, cn, po, cp, cs⟩ := rfl
        rw [he, handlePhotoTaken_mk, if_pos hcs4]
      have h2 : stepE purify
          ⟨.photoCapture, tp, addPhoto ph cp cs uri, cn, po, cp, cs + 1⟩ .back =
          ⟨.photoCapture, tp, addPhoto ph cp cs uri, cn, po, cp, cs + 1 - 1⟩ := by
        rw [stepE_back, handleBack_capture_mk, if_neg (fun hc => absurd hc.2 (by omega)),
          if_neg (by omega)]
      rw [h1, h2]
      refine ⟨rfl, rfl, ?_⟩
      show cs + 1 - 1 = cs
      omega
    · have hcs4' : cs = 4 := by omega
      subst hcs4'
      have hcptp : cp < tp := by
        rcases lt_or_eq_of_le hp2' with h | h
        · exact h
        · exact absurd ⟨h, rfl⟩ hlast'
      have h1 : stepE purify ⟨.photoCapture, tp, ph, cn, po, cp, 4⟩
          (.photoCaptured uri) =
          ⟨.photoCapture, tp, addPhoto ph cp 4 uri, cn, po, cp + 1, 1⟩ := by
        have he : stepE purify ⟨.photoCapture, tp, ph, cn, po, cp, 4⟩
            (.photoCaptured uri) =
            handlePhotoTaken uri ⟨.photoCapture, tp, ph, cn, po, cp, 4⟩ := rfl
        rw [he, handlePhotoTaken_mk, if_neg (by omega), if_pos hcptp]
      have h2 : stepE purify
          ⟨.photoCapture, tp, addPhoto ph cp 4 uri, cn, po, cp + 1, 1⟩ .back =
          ⟨.photoCapture, tp, addPhoto ph cp 4 uri, cn, po, cp + 1 - 1, 4⟩ := by
        rw [stepE_back, handleBack_capture_mk, if_neg (fun hc => absurd hc.1 (by omega)),
          if_pos rfl]
      rw [h1, h2]
      refine ⟨rfl, ?_, rfl⟩
      show cp + 1 - 1 = cp
      omega

/-- Witness for C2 at the interior position `(1,2)` of a 2-pallet session. -/
theorem spec_c2_witness :
    ((stepE (fun x => x) (stepE (fun x => x) midCapState .back)
        (.photoCaptured "u")).stage = midCapState.stage ∧
      (stepE (fun x => x) (stepE (fun x => x) midCapState .back)
        (.photoCaptured "u")).currentPallet = midCapState.currentPallet ∧
      (stepE (fun x => x) (stepE (fun x => x) midCapState .back)
        (.photoCaptured "u")).currentSide = midCapState.currentSide)
    ∧ ((stepE (fun x => x) (stepE (fun x => x) midCapState (.photoCaptured "u"))
        .back).stage = midCapState.stage ∧
      (stepE (fun x => x) (stepE (fun x => x) midCapState (.photoCaptured "u"))
        .back).currentPallet = midCapState.currentPallet ∧
      (stepE (fun x => x) (stepE (fun x => x) midCapState (.photoCaptured "u"))
        .back).currentSide = midCapState.currentSide) :=
  spec_c2 (fun x => x) "u" midCapState rfl (by decide) (by decide) (by decide)
    (by decide) (by decide) (by decide)

theorem capRun_add (m n : Nat) : ∀ s : AppState,
    capRun s (m + n) = capRun (capRun s m) n := by
  induction m with
  | zero =>
      intro s
      rw [Nat.zero_add]
      rfl
  | succ k ih =>
      intro s
      have hsum : k + 1 + n = (k + n) + 1 := by omega
      rw [hsum]
      show capRun (stepE (fun x => x) s (.photoCaptured "photo")) (k + n) = _
      rw [ih]
      rfl

theorem capTrace_add (m n : Nat) : ∀ s : AppState,
    capTrace s (m + n) = capTrace s m ++ capTrace (capRun s m) n := by
  induction m with
  | zero =>
      intro s
      rw [Nat.zero_add]
      rfl
  | succ k ih =>
      intro s
      have hsum : k + 1 + n = (k + n) + 1 := by omega
      rw [hsum]
      show (s.currentPallet, s.currentSide) ::
        capTrace (stepE (fun x => x) s (.photoCaptured "photo")) (k + n) = _
      rw [ih]
      rfl

theorem countPair_append (x : Int × Int) (l1 l2 : List (Int × Int)) :
    countPair x (l1 ++ l2) = countPair x l1 + countPair x l2 := by
  induction l1 with
  | nil => simp [countPair]
  | cons a t ih =>
      by_cases h : a = x <;> simp [countPair, ih, h] <;> omega

theorem countPair_sideBlock (q p s : Int) :
    countPair (p, s) (sideBlock q) =
      if p = q ∧ 1 ≤ s ∧ s ≤ 4 then 1 else 0 := by
  simp only [countPair, sideBlock, Prod.mk.injEq]
  split_ifs <;> omega

theorem countPair_sideMajorFrom (n : Nat) : ∀ q p s : Int,
    countPair (p, s) (sideMajorFrom q n) =
      if q ≤ p ∧ p < q + n ∧ 1 ≤ s ∧ s ≤ 4 then 1 else 0 := by
  induction n with
  | zero =>
      intro q p s
      simp only [sideMajorFrom, countPair]
      split_ifs with h <;> omega
  | succ k ih =>
      intro q p s
      show countPair (p, s) (sideBlock q ++ sideMajorFrom (q + 1) k) = _
      rw [countPair_append, countPair_sideBlock, ih (q + 1) p s]
      split_ifs <;> omega

theorem capRun_four (tp : Int) (ph : List PalletPhoto) (cn po : String)
    (cp : Int) :
    capRun ⟨.photoCapture, tp, ph, cn, po, cp, 1⟩ 4 =
      (if cp < tp then
        ⟨.photoCapture, tp,
          addPhoto (addPhoto (addPhoto (addPhoto ph cp 1 "photo") cp 2 "photo")
            cp 3 "photo") cp 4 "photo", cn, po, cp + 1, 1⟩
       else
        ⟨.gallery, tp,
          addPhoto (addPhoto (addPhoto (addPhoto ph cp 1 "photo") cp 2 "photo")
            cp 3 "photo") cp 4 "photo", cn, po, cp, 4⟩) := rfl

theorem capTrace_four (tp : Int) (ph : List PalletPhoto) (cn po : String)
    (cp : Int) :
    capTrace ⟨.photoCapture, tp, ph, cn, po, cp, 1⟩ 4 = sideBlock cp := rfl

theorem capRun_lt_four (tp : Int) (ph : List PalletPhoto) (cn po : String)
    (cp : Int) :
    ∀ i, i < 4 →
      (capRun ⟨.photoCapture, tp, ph, cn, po, cp, 1⟩ i).stage = .photoCapture := by
  intro i hi
  interval_cases i <;> rfl

/-- Iterating the capture transition over the remaining `n + 1` pallets: the
trace is exactly the side-major enumeration, the machine stays in Capture
throughout, and the final state is the Gallery at `(totalPallets, 4)`. -/
theorem capBlocks (n : Nat) : ∀ (tp : Int) (ph : List PalletPhoto)
    (cn po : String) (cp : Int), tp = cp + (n : Int) →
    capTrace ⟨.photoCapture, tp, ph, cn, po, cp, 1⟩ (4 * (n + 1)) =
      sideMajorFrom cp (n + 1)
    ∧ (capRun ⟨.photoCapture, tp, ph, cn, po, cp, 1⟩ (4 * (n + 1))).stage = .gallery
    ∧ (capRun ⟨.photoCapture, tp, ph, cn, po, cp, 1⟩ (4 * (n + 1))).currentPallet = tp
    ∧ (capRun ⟨.photoCapture, tp, ph, cn, po, cp, 1⟩ (4 * (n + 1))).currentSide = 4
    ∧ ∀ i, i < 4 * (n + 1) →
        (capRun ⟨.photoCapture, tp, ph, cn, po, cp, 1⟩ i).stage = .photoCapture := by
  induction n with
  | zero =>
      intro tp ph cn po cp heq
      have hnl : ¬cp < tp := by omega
      have h4 : 4 * (0 + 1) = 4 := by omega
      rw [h4]
      have hrun := capRun_four tp ph cn po cp
      rw [if_neg hnl] at hrun
      refine ⟨?_, ?_, ?_, ?_, ?_⟩
      · rw [capTrace_four]
        show sideBlock cp = sideBlock cp ++ sideMajorFrom (cp + 1) 0
        rfl
      · rw [hrun]
      · rw [hrun]
        show cp = tp
        omega
      · rw [hrun]
      · exact fun i hi => capRun_lt_four tp ph cn po cp i hi
  | succ k ih =>
      intro tp ph cn po cp heq
      have hlt : cp < tp := by omega
      have hrun := capRun_four tp ph cn po cp
      rw [if_pos hlt] at hrun
      have hsplit : 4 * (k + 1 + 1) = 4 + 4 * (k + 1) := by omega
      obtain ⟨ih1, ih2, ih3, ih4, ih5⟩ := ih tp
        (addPhoto (addPhoto (addPhoto (addPhoto ph cp 1 "photo") cp 2 "photo")
          cp 3 "photo") cp 4 "photo") cn po (cp + 1) (by omega)
      refine ⟨?_, ?_, ?_, ?_, ?_⟩
      · rw [hsplit, capTrace_add, capTrace_four, hrun, ih1]
        show sideBlock cp ++ sideMajorFrom (cp + 1) (k + 1) =
          sideBlock cp ++ sideMajorFrom (cp + 1) (k + 1)
        rfl
      · rw [hsplit, capRun_add, hrun]
        exact ih2
      · rw [hsplit, capRun_add, hrun]
        exact ih3
      · rw [hsplit, capRun_add, hrun]
        exact ih4
      · intro i hi
        by_cases hi4 : i < 4
        · exact capRun_lt_four tp ph cn po cp i hi4
        · obtain ⟨j, rfl⟩ : ∃ j, i = 4 + j := ⟨i - 4, by omega⟩
          rw [capRun_add, hrun]
          exact ih5 j (by omega)

/-- Claim C1: for every `totalPallets ∈ [1,50]`, starting the capture phase
at `(1,1)`, the iterated `photoCaptured` transition visits the pallet/side
pairs in side-major order `(1,1),(1,2),(1,3),(1,4),(2,1),…,(totalPallets,4)`,
visits each pair with `pallet ∈ [1,totalPallets]`, `side ∈ [1,4]` exactly
once, stays in the Capture stage for the first `4·totalPallets - 1` states,
and the application at `(totalPallets, 4)` moves the machine to Gallery. -/
theorem spec_c1 (T : Nat) (h1 : 1 ≤ T) (h2 : T ≤ 50) :
    capTrace (startCapture T) (4 * T) = sideMajorFrom 1 T
    ∧ (∀ i, i < 4 * T → (capRun (startCapture T) i).stage = .photoCapture)
    ∧ (capRun (startCapture T) (4 * T)).stage = .gallery
    ∧ (capRun (startCapture T) (4 * T)).currentPallet = (T : Int)
    ∧ (capRun (startCapture T) (4 * T)).currentSide = 4
    ∧ ∀ p s : Int, 1 ≤ p → p ≤ (T : Int) → 1 ≤ s → s ≤ 4 →
        countPair (p, s) (capTrace (startCapture T) (4 * T)) = 1 := by
  obtain ⟨k, rfl⟩ : ∃ k, T = k + 1 := ⟨T - 1, by omega⟩
  have hstart : startCapture (k + 1) =
      ⟨.photoCapture, ((k + 1 : Nat) : Int), [], "", "", 1, 1⟩ := rfl
  rw [hstart]
  obtain ⟨m1, m2, m3, m4, m5⟩ :=
    capBlocks k ((k + 1 : Nat) : Int) [] "" "" 1 (by omega)
  refine ⟨m1, m5, m2, m3, m4, ?_⟩
  intro p s hp1 hp2 hs1 hs2
  rw [m1, countPair_sideMajorFrom]
  split_ifs with hc
  · rfl
  · exfalso
    apply hc
    refine ⟨hp1, ?_, hs1, hs2⟩
    omega

/-- Witness for C1 at `totalPallets = 2`: the 8-shot trace is the side-major
enumeration of the 2×4 grid and the 8th application lands in the Gallery. -/
theorem spec_c1_witness :
    capTrace (startCapture 2) (4 * 2) = sideMajorFrom 1 2
    ∧ (capRun (startCapture 2) (4 * 2)).stage = .gallery :=
  ⟨(spec_c1 2 (by decide) (by decide)).1,
   (spec_c1 2 (by decide) (by decide)).2.2.1⟩
